import Mathlib

/-!
Verification of the integration-automation pipeline core
(`orchestrator/pipeline.py`, `orchestrator/stages/transform.py`,
`orchestrator/stages/test_heal.py`) via a shallow embedding.

Python strings are modelled as `List Char` (converted to Lean `String` at
module boundaries); Python dicts keyed by strings are modelled as
insertion-ordered association lists with replace-in-place update; the
external oracle and the CPython byte-compiler (`compile`, used only as a
syntax validator) are abstracted as function parameters; disk writes are
modelled as an explicit write log.
-/

set_option autoImplicit false

namespace IntegrationAutomation

/-- ASCII instance of the Python regex class `\s` (also the whitespace set
used by `str.strip()` on the ASCII inputs that occur here). -/
def isWs (c : Char) : Bool :=
  c = ' ' || c = '\t' || c = '\n' || c = '\r' || c = Char.ofNat 11 || c = Char.ofNat 12

/-- `pre.hasPrefixOf cs`: the character list `cs` starts with `pre`. -/
def hasPrefixOf : List Char → List Char → Bool
  | [], _ => true
  | _ :: _, [] => false
  | p :: ps, c :: cs => p = c && hasPrefixOf ps cs

/-- Python `str.strip()` (leading and trailing whitespace removed). -/
def pyStrip (cs : List Char) : List Char :=
  ((cs.dropWhile isWs).reverse.dropWhile isWs).reverse

/-- Python `str.rstrip()`-style right trim (used when modelling the
trailing-fence `re.sub` on an already-stripped string). -/
def pyStripRight (cs : List Char) : List Char :=
  (cs.reverse.dropWhile isWs).reverse

/-- Python `str.split(sep)` for a single-character separator: empty
segments are kept and the result is always non-empty. -/
def pySplitChar (sep : Char) : List Char → List (List Char)
  | [] => [[]]
  | c :: rest =>
    let r := pySplitChar sep rest
    if c = sep then [] :: r
    else
      match r with
      | h :: t => (c :: h) :: t
      | [] => [[c]]

/-- Python `"\n".join(lines)` over character lists. -/
def pyJoinNl : List (List Char) → List Char
  | [] => []
  | [l] => l
  | l :: rest => l ++ '\n' :: pyJoinNl rest

/-- Python `str.lower()` on ASCII. -/
def pyLowerChar (c : Char) : Char :=
  if 'A' ≤ c ∧ c ≤ 'Z' then Char.ofNat (c.toNat + 32) else c

/-- Python dict assignment `d[k] = v`: replace in place when the key is
present (keeping its original position), otherwise append. -/
def dictInsert (d : List (String × String)) (k v : String) : List (String × String) :=
  if d.any (fun p => p.1 = k) then d.map (fun p => if p.1 = k then (k, v) else p)
  else d ++ [(k, v)]

/-- `c` is an ASCII uppercase letter or underscore (`[A-Z_]`). -/
def isUpperStart (c : Char) : Bool := ('A' ≤ c && c ≤ 'Z') || c = '_'

/-- `[A-Z_0-9]`. -/
def isUpperRest (c : Char) : Bool := ('A' ≤ c && c ≤ 'Z') || c = '_' || ('0' ≤ c && c ≤ '9')

/-- `[a-z_]`. -/
def isLowerStart (c : Char) : Bool := ('a' ≤ c && c ≤ 'z') || c = '_'

/-- `[a-z_0-9]`. -/
def isLowerRest (c : Char) : Bool := ('a' ≤ c && c ≤ 'z') || c = '_' || ('0' ≤ c && c ≤ '9')

/-- The regex fragment `[A-Z_][A-Z_0-9]*\s*=` (resp. lowercase) applied at
the start of `cs`: an identifier in the given alphabet, optional
whitespace, then a literal `=`.  The character classes are disjoint from
`\s` and from `=`, so the greedy quantifiers are deterministic. -/
def identAssign (isFirst isRest : Char → Bool) : List Char → Bool
  | [] => false
  | c :: rest =>
    isFirst c && (((rest.dropWhile isRest).dropWhile isWs).head? = some '=')

/-- The string `'''` (three single-quote characters), built from
code points to keep the source free of quote-character literals. -/
def tripleSquote : List Char := [Char.ofNat 39, Char.ofNat 39, Char.ofNat 39]

/-- The string `"""`. -/
def tripleDquote : List Char := [Char.ofNat 34, Char.ofNat 34, Char.ofNat 34]

/-- The compiled regex `python_line` shared verbatim by
`transform._sanitize_code` and `test_heal._sanitize_code`: does the line
look like Python code?  (`re.match`, i.e. anchored at the start: optional
whitespace, then one of the listed alternatives.) -/
def pythonLine (line : List Char) : Bool :=
  let s := line.dropWhile isWs
  hasPrefixOf "import ".data s || hasPrefixOf "from ".data s ||
  hasPrefixOf "class ".data s || hasPrefixOf "def ".data s ||
  hasPrefixOf "#".data s || hasPrefixOf "@".data s ||
  hasPrefixOf tripleDquote s || hasPrefixOf tripleSquote s ||
  hasPrefixOf "if ".data s || hasPrefixOf "elif ".data s ||
  hasPrefixOf "else:".data s || hasPrefixOf "try:".data s ||
  hasPrefixOf "except ".data s || hasPrefixOf "finally:".data s ||
  hasPrefixOf "with ".data s ||
  hasPrefixOf "return ".data s || hasPrefixOf "raise ".data s ||
  hasPrefixOf "yield ".data s || hasPrefixOf "assert ".data s ||
  identAssign isUpperStart isUpperRest s ||
  identAssign isLowerStart isLowerRest s ||
  hasPrefixOf "__".data s || hasPrefixOf ")".data s || hasPrefixOf "]".data s

/-- The `first_code` scan of `_sanitize_code`: index of the first line
matching `python_line`, as an `Option` (`none` when no line matches;
the Python loop then leaves `first_code` at its initial value `0`). -/
def findFirstCode : List (List Char) → Option Nat
  | [] => none
  | l :: rest => if pythonLine l then some 0 else (findFirstCode rest).map (· + 1)

/-- A line at which the backward scan of `_sanitize_code` breaks: it is
indented by four spaces or a tab, or matches `python_line`.  (Blank lines
are skipped before this test is reached.) -/
def backStop (l : List Char) : Bool :=
  hasPrefixOf "    ".data l || hasPrefixOf "\t".data l || pythonLine l

/-- The backward scan of `_sanitize_code` (`for idx in
range(len(lines)-1, first_code-1, -1)`), processing the slice
`lines[first_code:]` reversed.  `idx` is the index of the head of `rev`;
`last` is the running value of `last_code` (an `Int`, since Python lets it
reach `first_code - 1`, possibly `-1`). -/
def scanBack : List (List Char) → Int → Int → Int
  | [], _, last => last
  | l :: rest, idx, last =>
    if pyStrip l = [] then scanBack rest (idx - 1) last
    else if backStop l then idx
    else scanBack rest (idx - 1) (idx - 1)

/-- `_sanitize_code` on lines (identical in `transform.py` and
`test_heal.py`): drop lines before the first `python_line` match and after
the last code-looking line, then strip the joined result. -/
def sanitizeLines (lines : List (List Char)) : List Char :=
  let first_code := (findFirstCode lines).getD 0
  let n := lines.length
  let last_code := scanBack (lines.drop first_code).reverse ((n : Int) - 1) ((n : Int) - 1)
  pyStrip (pyJoinNl ((lines.take (last_code + 1).toNat).drop first_code))

/-- `_sanitize_code` over character lists: split on newlines, scan, join,
strip. -/
def sanitizeChars (code : List Char) : List Char :=
  sanitizeLines (pySplitChar '\n' code)

/-- `_sanitize_code(code: str) -> str` as it appears in both modules. -/
def _sanitize_code (code : String) : String :=
  String.mk (sanitizeChars code.data)

/-! ### Markdown-fence stripping

Both modules repeatedly apply the pair of substitutions
`re.sub` of a leading-fence pattern (anchored `^`, a code fence, optional
`python`, then `\s*`) and of a trailing-fence pattern (`\s*`, a fence,
then `$`) — always to a string that has just been `.strip()`-ed.  On a
stripped input the pair is equivalent to: if the text starts with a
fence, drop it, drop an immediately following `python`, and drop the
whitespace run after that; then, if the text ends with a fence, drop it
together with the whitespace run before it. -/

/-- The three-backtick code-fence token. -/
def fenceTok : List Char := [Char.ofNat 96, Char.ofNat 96, Char.ofNat 96]

/-- The leading-fence substitution on a stripped string. -/
def fenceStripPre (cs : List Char) : List Char :=
  if hasPrefixOf fenceTok cs then
    let t := cs.drop 3
    let t := if hasPrefixOf "python".data t then t.drop 6 else t
    t.dropWhile isWs
  else cs

/-- The trailing-fence substitution on a string with no trailing
whitespace. -/
def fenceStripPost (cs : List Char) : List Char :=
  if hasPrefixOf fenceTok.reverse cs.reverse then
    pyStripRight (cs.take (cs.length - 3))
  else cs

/-- Both fence substitutions, applied (as at every call site) to the
`.strip()` of the input. -/
def fenceStrip (cs : List Char) : List Char :=
  fenceStripPost (fenceStripPre (pyStrip cs))

/-! ### Strategy 1: `==== FILE: <path> ====` markers

`re.split(r"={4,}\s*FILE:\s*(.+?)\s*={4,}", raw)` — used as the only
strategy by `transform._parse_multi_file_response` and as the primary
strategy by `test_heal._try_parse_eq_markers`.  The greedy pieces
`={4,}`, the `\s*` before `FILE:`, and the trailing `\s*={4,}` are
deterministic because their character sets are disjoint from what
follows them; the `\s*` before the capture group backtracks from its
maximal width, and the lazy group `(.+?)` (no DOTALL, so no newlines)
grows from one character. -/

/-- Match the pattern tail `\s*={4,}` at `cs`; return the remainder. -/
def eqTail (cs : List Char) : Option (List Char) :=
  let r := cs.dropWhile isWs
  if 4 ≤ (r.takeWhile (fun c => c = '=')).length then
    some (r.dropWhile (fun c => c = '='))
  else none

/-- Lazy group `(.+?)` followed by `eqTail`: grow the capture one
non-newline character at a time, trying the tail after each step. -/
def eqLazyGroup (acc : List Char) : List Char → Option (List Char × List Char)
  | [] => none
  | c :: rest =>
    if c = '\n' then none
    else
      match eqTail rest with
      | some after => some (acc ++ [c], after)
      | none => eqLazyGroup (acc ++ [c]) rest

/-- The `\s*` before the capture group, backtracking from width `m`
down to `0`. -/
def eqWsGroup (cs : List Char) : Nat → Option (List Char × List Char)
  | 0 => eqLazyGroup [] cs
  | m + 1 =>
    match eqLazyGroup [] (cs.drop (m + 1)) with
    | some r => some r
    | none => eqWsGroup cs m

/-- Try the whole marker pattern anchored at the head of `cs`; on
success return the captured path and the remainder after the match. -/
def eqMarkerAt (cs : List Char) : Option (List Char × List Char) :=
  if 4 ≤ (cs.takeWhile (fun c => c = '=')).length then
    let r := (cs.dropWhile (fun c => c = '=')).dropWhile isWs
    if hasPrefixOf "FILE:".data r then
      let r2 := r.drop 5
      eqWsGroup r2 (r2.takeWhile isWs).length
    else none
  else none

/-- Leftmost-match search: try `eqMarkerAt` at each position, collecting
the text before the match. -/
def eqFind (pre : List Char) : List Char → Option (List Char × List Char × List Char)
  | [] => none
  | c :: rest =>
    match eqMarkerAt (c :: rest) with
    | some (path, after) => some (pre.reverse, path, after)
    | none => eqFind (c :: pre) rest

/-- All matches in order, as `re.split` would interleave them: the list
of (text-before-match, captured-path) pairs plus the final trailing
text.  Each match consumes at least one character, so `fuel :=
length + 1` suffices. -/
def eqMatches (fuel : Nat) (cs : List Char) : List (List Char × List Char) × List Char :=
  match fuel with
  | 0 => ([], cs)
  | fuel + 1 =>
    match eqFind [] cs with
    | none => ([], cs)
    | some (pre, path, after) =>
      let (ms, last) := eqMatches fuel after
      ((pre, path) :: ms, last)

/-- Reassemble `re.split` matches into (path, code-segment) pairs: each
captured path is paired with the text up to the next match (or the
trailing text). -/
def pairUp : List (List Char × List Char) → List Char → List (List Char × List Char)
  | [], _ => []
  | [(_, p)], last => [(p, last)]
  | (_, p) :: (pre2, p2) :: ms, last => (p, pre2) :: pairUp ((pre2, p2) :: ms) last

/-- The shared dict-building loop over split parts: strip the path,
strip and fence-strip the code, keep the pair only when both are
non-empty, and store the sanitized code. -/
def buildSplitFiles (pairs : List (List Char × List Char)) : List (String × String) :=
  pairs.foldl
    (fun d pc =>
      let relPath := pyStrip pc.1
      let code := fenceStripPost (fenceStripPre (pyStrip pc.2))
      if relPath ≠ [] ∧ code ≠ [] then
        dictInsert d (String.mk relPath) (String.mk (sanitizeChars code))
      else d)
    []

/-- `_try_parse_eq_markers` (also the body of
`transform._parse_multi_file_response`): split on the primary markers
and build the file dict. -/
def tryParseEqMarkers (raw : List Char) : List (String × String) :=
  let (ms, last) := eqMatches (raw.length + 1) raw
  buildSplitFiles (pairUp ms last)

/-! ### Strategy 2: fenced blocks with a `# FILE: <path>` first line

`test_heal._try_parse_fenced_blocks`: `finditer` of the DOTALL pattern
(fence, optional `python`, `\s*` then a literal newline, `\s*`, `#`,
`\s*`, `FILE:`, `\s*`, lazy group 1, `\s*` then a literal newline, lazy
group 2, a literal newline, `\s*`, closing fence).  The runs
`\s*\n\s*#` and `\n\s*` + fence are deterministic (all backtracking
choices converge because `#` and the backtick are not whitespace); the
`\s*` before group 1 backtracks from its maximal width, both groups are
lazy, and with DOTALL group 1 may span newlines. -/

/-- The pattern tail `\n\s*` + fence: a literal newline, maximal
whitespace, then the closing fence; return the remainder. -/
def fencedClose : List Char → Option (List Char)
  | '\n' :: rest =>
    let r := rest.dropWhile isWs
    if hasPrefixOf fenceTok r then some (r.drop 3) else none
  | _ => none

/-- Lazy group 2 `(.*?)` (DOTALL, may be empty): try the close first,
then grow one character at a time. -/
def fencedGroup2 (acc : List Char) : List Char → Option (List Char × List Char)
  | [] =>
    match fencedClose [] with
    | some after => some (acc, after)
    | none => none
  | c :: rest =>
    match fencedClose (c :: rest) with
    | some after => some (acc, after)
    | none => fencedGroup2 (acc ++ [c]) rest

/-- `\s*\n` after group 1, backtracking over how much whitespace the
`\s*` takes (greedy, so from `k` downward; the next character must be
the literal newline), then lazy group 2. -/
def fencedAfterPath (cs : List Char) : Nat → Option (List Char × List Char)
  | 0 =>
    if cs.head? = some '\n' then fencedGroup2 [] (cs.drop 1) else none
  | k + 1 =>
    match (if (cs.drop (k + 1)).head? = some '\n' then fencedGroup2 [] (cs.drop (k + 2)) else none) with
    | some r => some r
    | none => fencedAfterPath cs k

/-- Lazy group 1 `(.+?)` (DOTALL, at least one character), then the
`\s*\n` tail and group 2. -/
def fencedGroup1 (acc : List Char) : List Char → Option (List Char × List Char × List Char)
  | [] => none
  | c :: rest =>
    match fencedAfterPath rest (rest.takeWhile isWs).length with
    | some (code, after) => some (acc ++ [c], code, after)
    | none => fencedGroup1 (acc ++ [c]) rest

/-- The `\s*` between `FILE:` and group 1, backtracking from width `m`. -/
def fencedPathSearch (cs : List Char) : Nat → Option (List Char × List Char × List Char)
  | 0 => fencedGroup1 [] cs
  | m + 1 =>
    match fencedGroup1 [] (cs.drop (m + 1)) with
    | some r => some r
    | none => fencedPathSearch cs m

/-- Try the whole fenced-block pattern anchored at the head of `cs`. -/
def fencedAt (cs : List Char) : Option (List Char × List Char × List Char) :=
  if hasPrefixOf fenceTok cs then
    let r := cs.drop 3
    let r := if hasPrefixOf "python".data r then r.drop 6 else r
    if (r.takeWhile isWs).any (fun c => c = '\n') then
      match r.dropWhile isWs with
      | '#' :: r2 =>
        let r3 := r2.dropWhile isWs
        if hasPrefixOf "FILE:".data r3 then
          let r4 := r3.drop 5
          fencedPathSearch r4 (r4.takeWhile isWs).length
        else none
      | _ => none
    else none
  else none

/-- Leftmost-match scan for `finditer`. -/
def fencedScan : List Char → Option (List Char × List Char × List Char)
  | [] => none
  | c :: rest =>
    match fencedAt (c :: rest) with
    | some r => some r
    | none => fencedScan rest

/-- `finditer`: collect non-overlapping matches left to right, resuming
after each match end.  A match consumes at least seven characters, so
`fuel := length + 1` suffices. -/
def fencedFindAll (fuel : Nat) (cs : List Char) : List (List Char × List Char) :=
  match fuel with
  | 0 => []
  | fuel + 1 =>
    match fencedScan cs with
    | none => []
    | some (path, code, after) => (path, code) :: fencedFindAll fuel after

/-- `_try_parse_fenced_blocks`: for each match, strip path and code and
store the sanitized code when both are non-empty (no per-block fence
substitutions in this strategy). -/
def tryParseFencedBlocks (raw : List Char) : List (String × String) :=
  (fencedFindAll (raw.length + 1) raw).foldl
    (fun d pc =>
      let relPath := pyStrip pc.1
      let code := pyStrip pc.2
      if relPath ≠ [] ∧ code ≠ [] then
        dictInsert d (String.mk relPath) (String.mk (sanitizeChars code))
      else d)
    []

/-! ### Strategy 3a: `--- <path.py> ---` separators

`re.split(r"-{3,}\s*(.+?\.py)\s*-{3,}", raw)`.  Here the opening dash
run genuinely backtracks (a shorter run lets dashes flow into the
capture group), so runs are tried from maximal width down to three; the
`\s*` before the group backtracks; the group is a lazy `.+?`
(non-newline) followed by the literal `.py`; the tail `\s*-{3,}` is
deterministic. -/

/-- The pattern tail `\s*-{3,}` at `cs`; return the remainder. -/
def dashTail (cs : List Char) : Option (List Char) :=
  let r := cs.dropWhile isWs
  if 3 ≤ (r.takeWhile (fun c => c = '-')).length then
    some (r.dropWhile (fun c => c = '-'))
  else none

/-- Lazy group `(.+?\.py)`: grow the `.+?` part one non-newline
character at a time; after each step require the literal `.py` and then
the dash tail. -/
def dashGroup (acc : List Char) : List Char → Option (List Char × List Char)
  | [] => none
  | c :: rest =>
    if c = '\n' then none
    else
      match (if hasPrefixOf ".py".data rest then dashTail (rest.drop 3) else none) with
      | some after => some (acc ++ (c :: ".py".data), after)
      | none => dashGroup (acc ++ [c]) rest

/-- The `\s*` before the group, backtracking from width `m`. -/
def dashWsGroup (cs : List Char) : Nat → Option (List Char × List Char)
  | 0 => dashGroup [] cs
  | m + 1 =>
    match dashGroup [] (cs.drop (m + 1)) with
    | some r => some r
    | none => dashWsGroup cs m

/-- The opening `-{3,}`, backtracking from run width `d` down to 3. -/
def dashAtWidth (cs : List Char) : Nat → Option (List Char × List Char)
  | 0 => none
  | 1 => none
  | 2 => none
  | d + 3 =>
    let r := cs.drop (d + 3)
    match dashWsGroup r (r.takeWhile isWs).length with
    | some res => some res
    | none => dashAtWidth cs (d + 2)

/-- Try the whole dash pattern anchored at the head of `cs`. -/
def dashAt (cs : List Char) : Option (List Char × List Char) :=
  dashAtWidth cs (cs.takeWhile (fun c => c = '-')).length

/-- Leftmost-match search for the dash split. -/
def dashFind (pre : List Char) : List Char → Option (List Char × List Char × List Char)
  | [] => none
  | c :: rest =>
    match dashAt (c :: rest) with
    | some (path, after) => some (pre.reverse, path, after)
    | none => dashFind (c :: pre) rest

/-- All dash-split matches, as in `eqMatches`. -/
def dashMatches (fuel : Nat) (cs : List Char) : List (List Char × List Char) × List Char :=
  match fuel with
  | 0 => ([], cs)
  | fuel + 1 =>
    match dashFind [] cs with
    | none => ([], cs)
    | some (pre, path, after) =>
      let (ms, last) := dashMatches fuel after
      ((pre, path) :: ms, last)

/-! ### Strategy 3b: `# path.py` / `## path.py` heading lines

`re.split(r"^#{1,2}\s*(?:FILE:\s*)?(.+?\.py)\s*$", raw, flags=re.MULTILINE)`.
`^` matches at the string start or right after a newline; `$` matches at
the string end or right before a newline (the newline stays in the
following split segment).  `#{1,2}` backtracks from two hashes to one;
both `\s*` runs backtrack from maximal width (and may cross newlines);
the optional `FILE:` part is tried first with, then without; the group
is a lazy non-newline `.+?` followed by the literal `.py`. -/

/-- MULTILINE `$`: at the end of the string or before a newline. -/
def atDollar (cs : List Char) : Bool :=
  cs = [] || cs.head? = some '\n'

/-- The pattern tail `\s*$`: consume `j` whitespace characters (greedy,
so from the maximal width down) and require `$`; return the remainder
(which starts with the newline kept by `re.split`). -/
def headingTailWs (cs : List Char) : Nat → Option (List Char)
  | 0 => if atDollar cs then some cs else none
  | j + 1 =>
    if atDollar (cs.drop (j + 1)) then some (cs.drop (j + 1))
    else headingTailWs cs j

/-- Lazy group `(.+?\.py)` followed by `\s*$`. -/
def headingGroup (acc : List Char) : List Char → Option (List Char × List Char)
  | [] => none
  | c :: rest =>
    if c = '\n' then none
    else
      match (if hasPrefixOf ".py".data rest then
               headingTailWs (rest.drop 3) ((rest.drop 3).takeWhile isWs).length
             else none) with
      | some after => some (acc ++ (c :: ".py".data), after)
      | none => headingGroup (acc ++ [c]) rest

/-- The inner `\s*` of the optional `FILE:\s*` part, backtracking. -/
def headingWsAfterFile (cs : List Char) : Nat → Option (List Char × List Char)
  | 0 => headingGroup [] cs
  | m + 1 =>
    match headingGroup [] (cs.drop (m + 1)) with
    | some r => some r
    | none => headingWsAfterFile cs m

/-- After an optional-`FILE:` decision point: with `FILE:` first, then
without. -/
def headingOptFile (cs : List Char) : Option (List Char × List Char) :=
  match (if hasPrefixOf "FILE:".data cs then
           headingWsAfterFile (cs.drop 5) ((cs.drop 5).takeWhile isWs).length
         else none) with
  | some r => some r
  | none => headingGroup [] cs

/-- The `\s*` after the hashes, backtracking from width `m`; at each
width try the optional `FILE:` then the group. -/
def headingWs (cs : List Char) : Nat → Option (List Char × List Char)
  | 0 => headingOptFile cs
  | m + 1 =>
    match headingOptFile (cs.drop (m + 1)) with
    | some r => some r
    | none => headingWs cs m

/-- `#{1,2}` (two hashes first, then one) anchored at the head of a
line-start position. -/
def headingAt (cs : List Char) : Option (List Char × List Char) :=
  match cs with
  | '#' :: '#' :: rest =>
    (match headingWs rest (rest.takeWhile isWs).length with
     | some r => some r
     | none => headingWs ('#' :: rest) (('#' :: rest).takeWhile isWs).length)
  | '#' :: rest => headingWs rest (rest.takeWhile isWs).length
  | _ => none

/-- Leftmost-match search respecting MULTILINE `^`: the pattern may only
start at the string start or right after a newline. -/
def headingFind (atLineStart : Bool) (pre : List Char) :
    List Char → Option (List Char × List Char × List Char)
  | [] => none
  | c :: rest =>
    match (if atLineStart then headingAt (c :: rest) else none) with
    | some (path, after) => some (pre.reverse, path, after)
    | none => headingFind (c = '\n') (c :: pre) rest

/-- All heading-split matches.  A match ends before its trailing
newline, so the resume position is never a line start. -/
def headingMatches (fuel : Nat) (atLineStart : Bool) (cs : List Char) :
    List (List Char × List Char) × List Char :=
  match fuel with
  | 0 => ([], cs)
  | fuel + 1 =>
    match headingFind atLineStart [] cs with
    | none => ([], cs)
    | some (pre, path, after) =>
      let (ms, last) := headingMatches fuel false after
      ((pre, path) :: ms, last)

/-- `_try_parse_alt_separators`: the dash split first; if it produced a
non-empty dict return it, otherwise the heading split; else empty. -/
def tryParseAltSeparators (raw : List Char) : List (String × String) :=
  let dashPairs :=
    let (ms, last) := dashMatches (raw.length + 1) raw
    buildSplitFiles (pairUp ms last)
  if dashPairs ≠ [] then dashPairs
  else
    let (ms, last) := headingMatches (raw.length + 1) true raw
    buildSplitFiles (pairUp ms last)

/-! ### The two multi-file response parsers -/

/-- `test_heal._parse_multi_file_response`: fence-strip the stripped
response, then try the three strategies in order, returning the first
non-empty result.  Strategy 2 is applied to the stripped (but not
fence-stripped) response, exactly as in the source. -/
def parse_multi_file_response (raw : String) : List (String × String) :=
  let stripped := fenceStrip raw.data
  let f1 := tryParseEqMarkers stripped
  if f1 ≠ [] then f1
  else
    let f2 := tryParseFencedBlocks (pyStrip raw.data)
    if f2 ≠ [] then f2
    else tryParseAltSeparators stripped

/-- `transform._parse_multi_file_response`: fence-strip the stripped
response and apply only the `==== FILE: ====` marker split. -/
def transform_parse_multi_file_response (raw : String) : List (String × String) :=
  tryParseEqMarkers (fenceStrip raw.data)

/-! ### Stage 2 — `_transform_one` and the heal-time writes

The oracle call is abstracted by passing its response text in; the
CPython syntax check `compile(code, filepath, "exec")` inside
`_validate_python` is abstracted as a boolean oracle `validate` on the
code text (the `filepath` argument only labels log messages); disk
writes are returned as an explicit `(path, code)` log. -/

/-- The single-file fallback body shared by `_transform_one` (both
phases) and `_heal`: strip the raw response, remove accidental fences,
sanitize, and attribute the result to the only known path. -/
def singleFileFallback (raw : String) : String :=
  String.mk (sanitizeChars (fenceStripPost (fenceStripPre (pyStrip raw.data))))

/-- The write loop shared by all three write sites: each parsed file is
written iff its code passes validation. -/
def validatedWrites (validate : String → Bool) (files : List (String × String)) :
    List (String × String) :=
  files.filter (fun pc => validate pc.2)

/-- Result record of `_transform_one`, with the write logs of both
phases made explicit. -/
structure TransformOutcome where
  client : String
  files_written : List String
  test_files_written : List String
  chars_written : Nat
  success : Bool
  error : Option String
  /-- ghost log: source-phase disk writes `(path, code)` -/
  writes : List (String × String)
  /-- ghost log: test-phase disk writes `(path, code)` -/
  test_writes : List (String × String)
  deriving DecidableEq

/-- The source-phase decision of `_transform_one`: the parsed files, or
the single-file fallback when parsing found nothing and exactly one
source file existed, or the error result when parsing found nothing and
the fallback does not apply. -/
def resolveUpdatedFiles (sources : List (String × String)) (raw : String) :
    Option (List (String × String)) :=
  let updated := transform_parse_multi_file_response raw
  if updated ≠ [] then some updated
  else
    match sources with
    | [(onlyPath, _)] => some [(onlyPath, singleFileFallback raw)]
    | _ => none

/-- The test-phase decision of `_transform_one`: same fallback, but with
no error case (an unparsable multi-test-file response just writes
nothing). -/
def resolveUpdatedTestFiles (testSources : List (String × String)) (rawTests : String) :
    List (String × String) :=
  let updated := transform_parse_multi_file_response rawTests
  if updated ≠ [] then updated
  else
    match testSources with
    | [(onlyPath, _)] => [(onlyPath, singleFileFallback rawTests)]
    | _ => []

/-- `_transform_one(client, analysis, base_dir)` with the oracle
responses `raw` (source phase) and `rawTests` (test phase) passed in.
Prompt construction is elided: it only feeds the abstracted oracle. -/
def _transform_one (validate : String → Bool) (client : String)
    (sources testSources : List (String × String)) (raw rawTests : String) :
    TransformOutcome :=
  match resolveUpdatedFiles sources raw with
  | none =>
      { client := client, files_written := [], test_files_written := []
        chars_written := 0, success := false
        error := some "Failed to parse Claude multi-file response"
        writes := [], test_writes := [] }
  | some updatedFiles =>
      let writes := validatedWrites validate updatedFiles
      let testWrites :=
        if testSources ≠ [] then
          validatedWrites validate (resolveUpdatedTestFiles testSources rawTests)
        else []
      { client := client
        files_written := writes.map (·.1)
        test_files_written := testWrites.map (·.1)
        chars_written := (writes.map (fun pc => pc.2.length)).sum
        success := true, error := none
        writes := writes, test_writes := testWrites }

/-- `_heal`: parse the heal response (with the same single-file
fallback against the source files) and write every block that passes
validation.  Prompt assembly and truncation are elided: they only feed
the abstracted oracle. -/
def healWrites (validate : String → Bool) (sources : List (String × String))
    (raw : String) : List (String × String) :=
  let updated := parse_multi_file_response raw
  let updated :=
    if updated = [] then
      match sources with
      | [(onlyPath, _)] => [(onlyPath, singleFileFallback raw)]
      | _ => updated
    else updated
  validatedWrites validate updated

/-! ### Stage 3 — the test-and-heal loop of `_test_and_heal_one`

The pytest runner is abstracted as `runTest : Nat → Bool` (round number
to pass/fail) and `_heal` as `heal : Nat → Except String Unit`
(`Except.error` models the `except Exception` branch at the heal call).
The loop `for round_num in range(MAX_HEAL_ROUNDS + 1)` with the guard
`round_num < MAX_HEAL_ROUNDS` is represented with the invariant
`remaining = MAX_HEAL_ROUNDS - round_num`, so the guard becomes a match
on `remaining`.  Besides `passed` and `rounds_used` (`round_num + 1` at
loop exit) the result carries ghost counters for how many test runs and
heal calls were performed, and whether the loop exited through the heal
exception branch. -/

def MAX_HEAL_ROUNDS : Nat := 3

/-- Terminal state of one target's test-and-heal loop. -/
structure HealLoopResult where
  passed : Bool
  rounds_used : Nat
  /-- ghost counter: pytest invocations performed -/
  test_runs : Nat
  /-- ghost counter: heal calls attempted -/
  heal_calls : Nat
  /-- the loop exited via the heal-exception `break` -/
  heal_errored : Bool
  deriving DecidableEq

/-- One iteration of the loop at round `i` with `remaining` heal rounds
left, having already performed `tr` test runs and `hc` heal calls. -/
def testHealGo (runTest : Nat → Bool) (heal : Nat → Except String Unit) :
    Nat → Nat → Nat → Nat → HealLoopResult
  | remaining, i, tr, hc =>
    if runTest i then ⟨true, i + 1, tr + 1, hc, false⟩
    else
      match remaining with
      | r + 1 =>
        match heal i with
        | .ok _ => testHealGo runTest heal r (i + 1) (tr + 1) (hc + 1)
        | .error _ => ⟨false, i + 1, tr + 1, hc + 1, true⟩
      | 0 => ⟨false, i + 1, tr + 1, hc, false⟩

/-- The whole loop of `_test_and_heal_one` (after test-path resolution
succeeded): rounds `0 .. MAX_HEAL_ROUNDS`. -/
def testHealLoop (runTest : Nat → Bool) (heal : Nat → Except String Unit) :
    HealLoopResult :=
  testHealGo runTest heal MAX_HEAL_ROUNDS 0 0 0

/-! ### Stage 3 — `run_and_heal_all`

The whole per-target procedure `_test_and_heal_one` (which, as Python,
may raise anywhere — e.g. in `_get_test_path`) is abstracted as
`perTarget : String → Except String TestRecord`; the wrapper catches
per-target exceptions and fabricates the error record. -/

/-- The per-target record returned by `_test_and_heal_one` /
stored by `run_and_heal_all`. -/
structure TestRecord where
  client : String
  passed : Bool
  rounds_used : Nat
  summary : String
  passed_count : Nat
  failed_count : Nat
  error_count : Nat
  output : String
  deriving DecidableEq

/-- Python dict assignment for `results[client] = record`. -/
def recInsert (d : List (String × TestRecord)) (k : String) (v : TestRecord) :
    List (String × TestRecord) :=
  if d.any (fun p => p.1 = k) then d.map (fun p => if p.1 = k then (k, v) else p)
  else d ++ [(k, v)]

/-- The record fabricated by the `except Exception as exc` branch of
`run_and_heal_all`. -/
def errorRecord (client exc : String) : TestRecord :=
  { client := client, passed := false, rounds_used := 0
    summary := "error — " ++ exc
    passed_count := 0, failed_count := 0, error_count := 1
    output := exc }

/-- `all_clients()` from `integration_config`: the keys of
`_CLIENT_CONFIG`, i.e. the three known targets. -/
def all_clients : List String := ["crewai", "langchain", "llamaindex"]

/-- `run_and_heal_all(scope, base_dir, notify)`: `targets = scope or
all_clients()` (an absent or empty scope expands to all three), then
each target is processed in order, converting a raised exception into
the error record instead of aborting the remaining targets. -/
def run_and_heal_all (perTarget : String → Except String TestRecord)
    (scope : Option (List String)) : List (String × TestRecord) :=
  let targets :=
    match scope with
    | some l => if l ≠ [] then l else all_clients
    | none => all_clients
  targets.foldl
    (fun results client =>
      match perTarget client with
      | .ok rec => recInsert results client rec
      | .error exc => recInsert results client (errorRecord client exc))
    []

/-! ### The pipeline orchestrator `run_pipeline`

The four stage calls are abstracted as `Except`-valued parameters (a
`.error` models the corresponding `except Exception` branch); the
report mirrors the `results` dict built by `run_pipeline`, with
`analysis` generic in the stage-1 payload type. -/

/-- A Stage-4 per-target record (`create_prs`); the orchestrator stores
it without inspecting it for control flow. -/
structure PRResult where
  client : String
  url : Option String
  skipped : Bool
  reason : Option String
  error : Option String
  deriving DecidableEq

/-- The `results` dict of `run_pipeline`. -/
structure PipelineReport (α : Type) where
  branch : String
  scope : List String
  analysis : Option α
  transform : List TransformOutcome
  tests : List (String × TestRecord)
  prs : List (String × PRResult)
  success : Bool
  errors : List String

/-- `_ALL_CLIENTS` in `pipeline.py`. -/
def _ALL_CLIENTS : List String := ["crewai", "langchain", "llamaindex"]

/-- The spellings `run_pipeline` accepts for `scope`. -/
inductive ScopeArg where
  | noScope
  | strScope (s : String)
  | listScope (l : List String)

/-- The normalisation `[s.strip().lower() for s in items if s.strip()]`
shared by the list and comma-separated branches of `_parse_scope`. -/
def normalizeItems (items : List String) : List String :=
  (items.filter (fun s => pyStrip s.data ≠ [])).map
    (fun s => String.mk ((pyStrip s.data).map pyLowerChar))

/-- `_parse_scope(scope)`. -/
def _parse_scope : ScopeArg → List String
  | .noScope => _ALL_CLIENTS
  | .strScope s =>
      if s = "all" then _ALL_CLIENTS
      else normalizeItems ((pySplitChar ',' s.data).map String.mk)
  | .listScope l => normalizeItems l

/-- The f-string rendering of `r.get("error")` in the Stage-2
error-collection loop (`None` when the key is absent). -/
def renderError : Option String → String
  | some e => e
  | none => "None"

/-- `run_pipeline(report_content, branch, scope, base_dir, notify)`.
Stage calls are abstracted: `analyze` is the Stage-1 call,
`transformAll targets` the Stage-2 call, `runHealAll targets` the
Stage-3 call and `createPRs targets` the Stage-4 call; notification is
side-effect-only and elided. -/
def run_pipeline {α : Type} (analyze : Except String α)
    (transformAll : List String → Except String (List TransformOutcome))
    (runHealAll : List String → Except String (List (String × TestRecord)))
    (createPRs : List String → Except String (List (String × PRResult)))
    (branch : String) (scope : ScopeArg) : PipelineReport α :=
  let targets := _parse_scope scope
  let results : PipelineReport α :=
    { branch := branch, scope := targets, analysis := none, transform := []
      tests := [], prs := [], success := false, errors := [] }
  match analyze with
  | .error exc =>
      { results with errors := results.errors ++ ["❌ Stage 1 (analyze) failed: " ++ exc] }
  | .ok analysis =>
    let results := { results with analysis := some analysis }
    match transformAll targets with
    | .error exc =>
        { results with errors := results.errors ++ ["❌ Stage 2 (transform) failed: " ++ exc] }
    | .ok transformResults =>
      let results := { results with transform := transformResults }
      let results :=
        { results with
            errors := results.errors ++
              (transformResults.filterMap (fun (r : TransformOutcome) =>
                if r.success then none
                else some ("transform[" ++ r.client ++ "]: " ++ renderError r.error))) }
      match runHealAll targets with
      | .error exc =>
          { results with errors := results.errors ++ ["❌ Stage 3 (test) failed: " ++ exc] }
      | .ok testResults =>
        let results := { results with tests := testResults }
        let allPassed := testResults.all (fun tr => tr.2.passed)
        if ¬ allPassed then
          let failing := (testResults.filter (fun tr => ¬ tr.2.passed)).map (·.1)
          { results with
              errors := results.errors ++
                ["PRs skipped — tests still failing for: " ++ String.intercalate ", " failing] }
        else
          match createPRs targets with
          | .error exc =>
              { results with errors := results.errors ++ ["❌ Stage 4 (PRs) failed: " ++ exc] }
          | .ok prResults =>
            let results := { results with prs := prResults }
            { results with success := results.errors.isEmpty }

/-! ### Concrete sample inputs used by witnesses and counterexamples -/

/-- An oracle response in the fenced-block convention (strategy 2)
containing one file and no primary markers. -/
def fencedOnlyResponse : String := "```python\n# FILE: a.py\nx = 1\n```"

/-- An oracle response in the primary `==== FILE: ====` convention. -/
def eqMarkerResponse : String := "==== FILE: a.py ====\nx = 1"

/-- An oracle response with no recognizable file markers. -/
def proseResponse : String := "This oracle reply contains no file markers at all."

/-- A Stage-3 record for a target whose tests stayed red. -/
def demoFailRecord : TestRecord :=
  { client := "crewai", passed := false, rounds_used := 4
    summary := "1 failed", passed_count := 0, failed_count := 1
    error_count := 0, output := "FAILURES" }

/-- Python dict read `results[client]`. -/
def lookupRec (k : String) : List (String × TestRecord) → Option TestRecord
  | [] => none
  | (k2, v) :: rest => if k = k2 then some v else lookupRec k rest

/-- The record `run_and_heal_all` ends up storing for a target: the
returned record, or the fabricated error record if the per-target
procedure raised. -/
def healOutcome (perTarget : String → Except String TestRecord) (c : String) : TestRecord :=
  match perTarget c with
  | .ok rec => rec
  | .error exc => errorRecord c exc

/-! ## Theorems -/

theorem lookupRec_cons_eq (k k2 : String) (v : TestRecord)
    (d : List (String × TestRecord)) (h : k = k2) :
    lookupRec k ((k2, v) :: d) = some v := by
  simp only [lookupRec]
  exact if_pos h

theorem lookupRec_cons_ne (k k2 : String) (v : TestRecord)
    (d : List (String × TestRecord)) (h : ¬ k = k2) :
    lookupRec k ((k2, v) :: d) = lookupRec k d := by
  simp only [lookupRec]
  exact if_neg h

theorem updPair_hit (k : String) (v : TestRecord) (k2 : String) (v2 : TestRecord)
    (h : k2 = k) : (if (k2, v2).1 = k then (k, v) else (k2, v2)) = (k, v) := if_pos h

theorem updPair_miss (k : String) (v : TestRecord) (k2 : String) (v2 : TestRecord)
    (h : ¬ k2 = k) : (if (k2, v2).1 = k then (k, v) else (k2, v2)) = (k2, v2) := if_neg h

theorem lookupRec_append (k : String) (d1 d2 : List (String × TestRecord)) :
    lookupRec k (d1 ++ d2) =
      match lookupRec k d1 with
      | some v => some v
      | none => lookupRec k d2 := by
  induction d1 with
  | nil => rfl
  | cons p d ih =>
    obtain ⟨k2, v2⟩ := p
    by_cases hk : k = k2
    · rw [List.cons_append, lookupRec_cons_eq k k2 v2 _ hk, lookupRec_cons_eq k k2 v2 _ hk]
    · rw [List.cons_append, lookupRec_cons_ne k k2 v2 _ hk, lookupRec_cons_ne k k2 v2 _ hk, ih]

theorem lookupRec_map_update_self (k : String) (v : TestRecord)
    (d : List (String × TestRecord)) :
    lookupRec k (d.map (fun p => if p.1 = k then (k, v) else p)) =
      (lookupRec k d).map (fun _ => v) := by
  induction d with
  | nil => rfl
  | cons p d ih =>
    obtain ⟨k2, v2⟩ := p
    rw [List.map_cons]
    by_cases hk : k2 = k
    · rw [updPair_hit k v k2 v2 hk, lookupRec_cons_eq k k v _ rfl,
        lookupRec_cons_eq k k2 v2 _ hk.symm]
      rfl
    · rw [updPair_miss k v k2 v2 hk, lookupRec_cons_ne k k2 v2 _ (fun h => hk h.symm),
        lookupRec_cons_ne k k2 v2 _ (fun h => hk h.symm), ih]

theorem lookupRec_isSome_of_any (k : String) (d : List (String × TestRecord))
    (h : d.any (fun p => p.1 = k) = true) : (lookupRec k d).isSome = true := by
  induction d with
  | nil => simp at h
  | cons p d ih =>
    obtain ⟨k2, v2⟩ := p
    by_cases hk : k = k2
    · rw [lookupRec_cons_eq k k2 v2 _ hk]
      rfl
    · rw [lookupRec_cons_ne k k2 v2 _ hk]
      simp only [List.any_cons] at h
      rcases Bool.or_eq_true_iff.mp h with h1 | h2
      · exact absurd (of_decide_eq_true h1).symm hk
      · exact ih h2

theorem lookupRec_none_of_not_any (k : String) (d : List (String × TestRecord))
    (h : d.any (fun p => p.1 = k) = false) : lookupRec k d = none := by
  induction d with
  | nil => rfl
  | cons p d ih =>
    obtain ⟨k2, v2⟩ := p
    simp only [List.any_cons, Bool.or_eq_false_iff] at h
    have hk : ¬ k = k2 := fun hh => by simp [hh] at h
    rw [lookupRec_cons_ne k k2 v2 _ hk]
    exact ih h.2

theorem lookupRec_recInsert_self (d : List (String × TestRecord)) (k : String)
    (v : TestRecord) : lookupRec k (recInsert d k v) = some v := by
  by_cases h : d.any (fun p => p.1 = k) = true
  · rw [recInsert, if_pos h, lookupRec_map_update_self]
    obtain ⟨w, hw⟩ := Option.isSome_iff_exists.mp (lookupRec_isSome_of_any k d h)
    rw [hw]
    rfl
  · rw [recInsert, if_neg h, lookupRec_append,
      lookupRec_none_of_not_any k d (Bool.eq_false_iff.mpr h)]
    simp [lookupRec]

theorem lookupRec_map_update_ne (k k2 : String) (v : TestRecord)
    (d : List (String × TestRecord)) (hne : k ≠ k2) :
    lookupRec k (d.map (fun p => if p.1 = k2 then (k2, v) else p)) = lookupRec k d := by
  induction d with
  | nil => rfl
  | cons p d ih =>
    obtain ⟨k3, v3⟩ := p
    rw [List.map_cons]
    by_cases hk : k3 = k2
    · rw [updPair_hit k2 v k3 v3 hk, lookupRec_cons_ne k k2 v _ hne,
        lookupRec_cons_ne k k3 v3 _ (hk ▸ hne), ih]
    · by_cases hk3 : k = k3
      · rw [updPair_miss k2 v k3 v3 hk, lookupRec_cons_eq k k3 v3 _ hk3,
          lookupRec_cons_eq k k3 v3 _ hk3]
      · rw [updPair_miss k2 v k3 v3 hk, lookupRec_cons_ne k k3 v3 _ hk3,
          lookupRec_cons_ne k k3 v3 _ hk3, ih]

theorem lookupRec_recInsert_ne (d : List (String × TestRecord)) (k k2 : String)
    (v : TestRecord) (hne : k ≠ k2) : lookupRec k (recInsert d k2 v) = lookupRec k d := by
  by_cases h : d.any (fun p => p.1 = k2) = true
  · rw [recInsert, if_pos h, lookupRec_map_update_ne k k2 v d hne]
  · rw [recInsert, if_neg h, lookupRec_append]
    cases hl : lookupRec k d with
    | none => simp [lookupRec, hne]
    | some w => rfl

theorem lookupRec_fold_not_mem (f : String → TestRecord) (l : List String)
    (init : List (String × TestRecord)) (c : String) (hc : c ∉ l) :
    lookupRec c (l.foldl (fun res x => recInsert res x (f x)) init) = lookupRec c init := by
  induction l generalizing init with
  | nil => rfl
  | cons x xs ih =>
    have hcx : c ≠ x := fun h => hc (h ▸ List.mem_cons_self x xs)
    have hcxs : c ∉ xs := fun h => hc (List.mem_cons_of_mem x h)
    simp only [List.foldl_cons]
    rw [ih _ hcxs, lookupRec_recInsert_ne _ _ _ _ hcx]

theorem lookupRec_fold_mem (f : String → TestRecord) (l : List String)
    (init : List (String × TestRecord)) (c : String) (hc : c ∈ l) :
    lookupRec c (l.foldl (fun res x => recInsert res x (f x)) init) = some (f c) := by
  induction l generalizing init with
  | nil => exact absurd hc (List.not_mem_nil c)
  | cons x xs ih =>
    by_cases hmem : c ∈ xs
    · simpa using ih _ hmem
    · have hcx : c = x := by
        rcases List.mem_cons.mp hc with h | h
        · exact h
        · exact absurd h hmem
      subst hcx
      simp only [List.foldl_cons]
      rw [lookupRec_fold_not_mem _ _ _ _ hmem, lookupRec_recInsert_self]

theorem run_and_heal_all_as_fold (perTarget : String → Except String TestRecord)
    (l : List String) (hl : l ≠ []) :
    run_and_heal_all perTarget (some l) =
      l.foldl (fun res x => recInsert res x (healOutcome perTarget x)) [] := by
  have hdef : run_and_heal_all perTarget (some l) =
      (if l ≠ [] then l else all_clients).foldl
        (fun results client =>
          match perTarget client with
          | .ok rec => recInsert results client rec
          | .error exc => recInsert results client (errorRecord client exc)) [] := rfl
  have hfn : (fun (results : List (String × TestRecord)) (client : String) =>
        match perTarget client with
        | .ok rec => recInsert results client rec
        | .error exc => recInsert results client (errorRecord client exc)) =
      (fun res x => recInsert res x (healOutcome perTarget x)) := by
    funext res x
    unfold healOutcome
    cases perTarget x <;> rfl
  rw [hdef, if_pos hl, hfn]

/-- Claim C10: `run_and_heal_all` never lets a per-target exception
escape: a target whose per-target procedure raises still gets a terminal
record with `passed = false`, `rounds_used = 0`, `error_count = 1` and a
summary carrying the exception text, and every other target in scope is
still processed (it has an entry in the results). -/
theorem run_and_heal_all_isolates_target_errors
    (perTarget : String → Except String TestRecord) (l : List String) (hl : l ≠ [])
    (c : String) (hc : c ∈ l) (e : String) (he : perTarget c = Except.error e) :
    lookupRec c (run_and_heal_all perTarget (some l)) = some (errorRecord c e) ∧
    (errorRecord c e).passed = false ∧
    (errorRecord c e).rounds_used = 0 ∧
    (errorRecord c e).error_count = 1 ∧
    (errorRecord c e).summary = "error — " ++ e ∧
    (errorRecord c e).output = e ∧
    ∀ c2 ∈ l, (lookupRec c2 (run_and_heal_all perTarget (some l))).isSome = true := by
  rw [run_and_heal_all_as_fold perTarget l hl]
  refine ⟨?_, rfl, rfl, rfl, rfl, rfl, ?_⟩
  · rw [lookupRec_fold_mem _ _ _ _ hc]
    unfold healOutcome
    rw [he]
  · intro c2 hc2
    rw [lookupRec_fold_mem _ _ _ _ hc2]
    rfl

/-- Witness for C10: a per-target stub that always raises, over a
two-target scope. -/
theorem run_and_heal_all_isolates_target_errors_witness :
    lookupRec "crewai"
        (run_and_heal_all (fun _ => Except.error "boom") (some ["crewai", "langchain"])) =
      some (errorRecord "crewai" "boom") ∧
    (lookupRec "langchain"
        (run_and_heal_all (fun _ => Except.error "boom")
          (some ["crewai", "langchain"]))).isSome = true := by
  have h := run_and_heal_all_isolates_target_errors (fun _ => Except.error "boom")
    ["crewai", "langchain"] (by decide) "crewai" (by decide) "boom" rfl
  exact ⟨h.1, h.2.2.2.2.2.2 "langchain" (by decide)⟩

/-- Claim C9: scope normalisation is set-equivalent across the accepted
spellings — `"all"`, an absent scope, and a full comma-separated
enumeration of the known targets all yield the same target set
(order-insensitive), and list-valued or comma-separated scopes are
lower-cased, trimmed, and stripped of empty segments. -/
theorem parse_scope_set_equivalent :
    _parse_scope ScopeArg.noScope = _ALL_CLIENTS ∧
    _parse_scope (ScopeArg.strScope "all") = _ALL_CLIENTS ∧
    _parse_scope (ScopeArg.strScope "crewai,langchain,llamaindex") = _ALL_CLIENTS ∧
    (_parse_scope (ScopeArg.strScope "llamaindex, crewai,langchain")).Perm _ALL_CLIENTS ∧
    _parse_scope (ScopeArg.listScope ["  CrewAI ", "", "LANGCHAIN"]) = ["crewai", "langchain"] ∧
    _parse_scope (ScopeArg.strScope "crewai,,langchain,") = ["crewai", "langchain"] := by
  refine ⟨rfl, rfl, ?_, ?_, ?_, ?_⟩ <;> decide

/-- Claim C1: if the test runner fails on every attempt (and heal calls
return normally), the Stage-3 loop ends with `passed = false` and
`rounds_used = MAX_HEAL_ROUNDS + 1 = 4`; if it fails on the first two
attempts and passes on the third, the loop ends with `passed = true` and
`rounds_used = 3`. -/
theorem stage3_bounded_retry_rounds
    (rt1 : Nat → Bool) (heal1 : Nat → Except String Unit)
    (rt2 : Nat → Bool) (heal2 : Nat → Except String Unit)
    (h1 : ∀ i, rt1 i = false) (hh1 : ∀ i, heal1 i = Except.ok ())
    (h2a : rt2 0 = false) (h2b : rt2 1 = false) (h2c : rt2 2 = true)
    (hh2 : ∀ i, heal2 i = Except.ok ()) :
    ((testHealLoop rt1 heal1).passed = false ∧
      (testHealLoop rt1 heal1).rounds_used = MAX_HEAL_ROUNDS + 1 ∧
      (testHealLoop rt1 heal1).rounds_used = 4) ∧
    ((testHealLoop rt2 heal2).passed = true ∧
      (testHealLoop rt2 heal2).rounds_used = 3) := by
  constructor
  · simp [testHealLoop, testHealGo, MAX_HEAL_ROUNDS, h1, hh1]
  · simp [testHealLoop, testHealGo, MAX_HEAL_ROUNDS, h2a, h2b, h2c, hh2]

/-- Witness for C1 with concrete stubs: a runner that always fails and a
runner that passes exactly on the third attempt. -/
theorem stage3_bounded_retry_rounds_witness :
    ((testHealLoop (fun _ => false) (fun _ => Except.ok ())).passed = false ∧
      (testHealLoop (fun _ => false) (fun _ => Except.ok ())).rounds_used = MAX_HEAL_ROUNDS + 1 ∧
      (testHealLoop (fun _ => false) (fun _ => Except.ok ())).rounds_used = 4) ∧
    ((testHealLoop (fun i => i == 2) (fun _ => Except.ok ())).passed = true ∧
      (testHealLoop (fun i => i == 2) (fun _ => Except.ok ())).rounds_used = 3) :=
  stage3_bounded_retry_rounds (fun _ => false) (fun _ => Except.ok ())
    (fun i => i == 2) (fun _ => Except.ok ())
    (fun _ => rfl) (fun _ => rfl) rfl rfl rfl (fun _ => rfl)

/-- Claim C2: if the tests fail at round `i` and the heal call at round
`i` throws while heal rounds remain, the loop stops at once with
`passed = false`: exactly one more test run and one heal attempt happen
from that point (the ghost counters advance by one each), and the
remaining rounds are not consumed; in particular a heal throw on the
very first round ends the whole loop after a single test run and a
single heal call. -/
theorem stage3_heal_exception_stops_loop
    (rt : Nat → Bool) (heal : Nat → Except String Unit) (e : String)
    (r i tr hc : Nat) (hfail : rt i = false) (hthrow : heal i = Except.error e) :
    testHealGo rt heal (r + 1) i tr hc =
      { passed := false, rounds_used := i + 1, test_runs := tr + 1
        heal_calls := hc + 1, heal_errored := true } ∧
    (i = 0 → testHealLoop rt heal =
      { passed := false, rounds_used := 1, test_runs := 1
        heal_calls := 1, heal_errored := true }) := by
  constructor
  · simp [testHealGo, hfail, hthrow]
  · rintro rfl
    simp [testHealLoop, testHealGo, MAX_HEAL_ROUNDS, hfail, hthrow]

/-- Witness for C2: a heal stub that throws on its first invocation. -/
theorem stage3_heal_exception_stops_loop_witness :
    testHealGo (fun _ => false) (fun _ => Except.error "oracle down") 3 0 0 0 =
      { passed := false, rounds_used := 1, test_runs := 1
        heal_calls := 1, heal_errored := true } ∧
    testHealLoop (fun _ => false) (fun _ => Except.error "oracle down") =
      { passed := false, rounds_used := 1, test_runs := 1
        heal_calls := 1, heal_errored := true } := by
  have h := stage3_heal_exception_stops_loop (fun _ => false)
    (fun _ => Except.error "oracle down") "oracle down" 2 0 0 0 rfl rfl
  exact ⟨h.1, h.2 rfl⟩

/-- Claim C6: on every return path of `run_pipeline`, the report
satisfies `success = true` iff its `errors` list is empty — `success` is
only computed (as `errors == []`) after Stage 4, and every early return
leaves `success = false` having appended an error. -/
theorem pipeline_success_iff_no_errors {α : Type} (analyze : Except String α)
    (transformAll : List String → Except String (List TransformOutcome))
    (runHealAll : List String → Except String (List (String × TestRecord)))
    (createPRs : List String → Except String (List (String × PRResult)))
    (branch : String) (scope : ScopeArg) :
    ((run_pipeline analyze transformAll runHealAll createPRs branch scope).success = true ↔
      (run_pipeline analyze transformAll runHealAll createPRs branch scope).errors = []) := by
  rcases analyze with e | a
  · simp [run_pipeline]
  · rcases h2 : transformAll (_parse_scope scope) with e2 | trs
    · simp [run_pipeline, h2]
    · rcases h3 : runHealAll (_parse_scope scope) with e3 | tests
      · simp [run_pipeline, h2, h3, List.append_eq_nil]
      · by_cases hall : tests.all (fun tr => tr.2.passed) = true
        · rcases h4 : createPRs (_parse_scope scope) with e4 | prs
          · simp [run_pipeline, h2, h3, h4, hall, List.append_eq_nil]
          · simp [run_pipeline, h2, h3, h4, hall, List.isEmpty_iff]
        · simp [run_pipeline, h2, h3, hall, List.append_eq_nil]

/-- Claim C3: if Stages 1–3 ran and some Stage-3 record has
`passed = false`, Stage 4 is never entered: the report's `prs` mapping
is empty and `errors` contains the skip message naming the (non-empty)
list of failing targets. -/
theorem pipeline_skips_stage4_on_test_failure {α : Type} (analyze : Except String α)
    (transformAll : List String → Except String (List TransformOutcome))
    (runHealAll : List String → Except String (List (String × TestRecord)))
    (createPRs : List String → Except String (List (String × PRResult)))
    (branch : String) (scope : ScopeArg)
    (a : α) (ha : analyze = Except.ok a)
    (trs : List TransformOutcome) (htr : transformAll (_parse_scope scope) = Except.ok trs)
    (tests : List (String × TestRecord))
    (hts : runHealAll (_parse_scope scope) = Except.ok tests)
    (c : String) (t : TestRecord) (hmem : (c, t) ∈ tests) (hfail : t.passed = false) :
    (run_pipeline analyze transformAll runHealAll createPRs branch scope).prs = [] ∧
    ("PRs skipped — tests still failing for: " ++
        String.intercalate ", "
          ((tests.filter (fun tr => ¬ tr.2.passed)).map (·.1))) ∈
      (run_pipeline analyze transformAll runHealAll createPRs branch scope).errors ∧
    (tests.filter (fun tr => ¬ tr.2.passed)).map (·.1) ≠ [] := by
  have hall : tests.all (fun tr => tr.2.passed) = false := by
    apply Bool.eq_false_iff.mpr
    intro hAllTrue
    have := List.all_eq_true.mp hAllTrue (c, t) hmem
    rw [hfail] at this
    exact Bool.false_ne_true this
  have hne : (tests.filter (fun tr => ¬ tr.2.passed)).map (·.1) ≠ [] := by
    have hmemf : (c, t) ∈ tests.filter (fun tr => ¬ tr.2.passed) := by
      rw [List.mem_filter]
      exact ⟨hmem, by simp [hfail]⟩
    exact List.ne_nil_of_mem (List.mem_map_of_mem (·.1) hmemf)
  refine ⟨?_, ?_, hne⟩ <;>
    simp only [run_pipeline, ha, htr, hts] <;>
    rw [if_pos (by simp [hall])]
  exact List.mem_append_right _ (List.mem_singleton.mpr rfl)

/-- Witness for C3: a run whose single in-scope record failed Stage 3. -/
theorem pipeline_skips_stage4_on_test_failure_witness :
    (run_pipeline (α := Nat) (Except.ok 0) (fun _ => Except.ok [])
        (fun _ => Except.ok [("crewai", demoFailRecord)]) (fun _ => Except.ok [])
        "auto/endee-update" ScopeArg.noScope).prs = [] ∧
    ("PRs skipped — tests still failing for: " ++
        String.intercalate ", "
          (([("crewai", demoFailRecord)].filter (fun tr => ¬ tr.2.passed)).map (·.1))) ∈
      (run_pipeline (α := Nat) (Except.ok 0) (fun _ => Except.ok [])
        (fun _ => Except.ok [("crewai", demoFailRecord)]) (fun _ => Except.ok [])
        "auto/endee-update" ScopeArg.noScope).errors ∧
    ([("crewai", demoFailRecord)].filter (fun tr => ¬ tr.2.passed)).map (·.1) ≠ [] :=
  pipeline_skips_stage4_on_test_failure (Except.ok 0) (fun _ => Except.ok [])
    (fun _ => Except.ok [("crewai", demoFailRecord)]) (fun _ => Except.ok [])
    "auto/endee-update" ScopeArg.noScope 0 rfl [] rfl [("crewai", demoFailRecord)] rfl
    "crewai" demoFailRecord (List.mem_singleton.mpr rfl) rfl

theorem mem_validatedWrites {validate : String → Bool} {files : List (String × String)}
    {p c : String} (h : (p, c) ∈ validatedWrites validate files) : validate c = true :=
  (List.mem_filter.mp h).2

/-- Claim C5: every parsed file block is syntax-validated before
writing — a `(path, code)` pair reaches the write log only if `code`
passes validation, and a pair failing validation is never written: in
the Stage-2 source phase, the Stage-2 test phase, and the Stage-3 heal
application alike. -/
theorem writes_require_validation (validate : String → Bool) (client : String)
    (sources testSources : List (String × String)) (raw rawTests healRaw : String)
    (p c : String) :
    ((p, c) ∈ (_transform_one validate client sources testSources raw rawTests).writes →
      validate c = true) ∧
    ((p, c) ∈ (_transform_one validate client sources testSources raw rawTests).test_writes →
      validate c = true) ∧
    ((p, c) ∈ healWrites validate sources healRaw → validate c = true) ∧
    (validate c = false →
      (p, c) ∉ (_transform_one validate client sources testSources raw rawTests).writes ∧
      (p, c) ∉ (_transform_one validate client sources testSources raw rawTests).test_writes ∧
      (p, c) ∉ healWrites validate sources healRaw) := by
  have h1 : (p, c) ∈ (_transform_one validate client sources testSources raw rawTests).writes →
      validate c = true := by
    intro h
    unfold _transform_one at h
    rcases hres : resolveUpdatedFiles sources raw with _ | files
    · rw [hres] at h
      simp at h
    · rw [hres] at h
      exact mem_validatedWrites h
  have h2 : (p, c) ∈ (_transform_one validate client sources testSources raw rawTests).test_writes →
      validate c = true := by
    intro h
    unfold _transform_one at h
    rcases hres : resolveUpdatedFiles sources raw with _ | files
    · rw [hres] at h
      simp at h
    · rw [hres] at h
      dsimp only at h
      by_cases hts : testSources ≠ []
      · rw [if_pos hts] at h
        exact mem_validatedWrites h
      · rw [if_neg hts] at h
        simp at h
  have h3 : (p, c) ∈ healWrites validate sources healRaw → validate c = true := by
    intro h
    exact mem_validatedWrites h
  refine ⟨h1, h2, h3, ?_⟩
  intro hbad
  refine ⟨fun h => ?_, fun h => ?_, fun h => ?_⟩
  · rw [h1 h] at hbad
    exact Bool.noConfusion hbad
  · rw [h2 h] at hbad
    exact Bool.noConfusion hbad
  · rw [h3 h] at hbad
    exact Bool.noConfusion hbad

/-- Witness for C5, with a validator accepting only the block the
sample oracle responses carry. -/
theorem writes_require_validation_witness :
    ((fun s => s == "x = 1") : String → Bool) "x = 1" = true ∧
    ("a.py", "x = 1") ∈
      (_transform_one (fun s => s == "x = 1") "crewai" [("a.py", "old")]
        [("t.py", "told")] eqMarkerResponse eqMarkerResponse).writes := by
  have hmem : ("a.py", "x = 1") ∈
      (_transform_one (fun s => s == "x = 1") "crewai" [("a.py", "old")]
        [("t.py", "told")] eqMarkerResponse eqMarkerResponse).writes := by decide
  exact ⟨(writes_require_validation (fun s => s == "x = 1") "crewai" [("a.py", "old")]
    [("t.py", "told")] eqMarkerResponse eqMarkerResponse eqMarkerResponse
    "a.py" "x = 1").1 hmem, hmem⟩

/-- Claim C7: in Stage 2, when parsing yields zero files: with exactly
one pre-existing source file the whole response (stripped,
fence-stripped, sanitized) becomes that file's new content; with more
than one source file the target's result is `success = false` with the
captured error string, and nothing is written. -/
theorem transform_zero_parse_fallbacks (validate : String → Bool) (client : String)
    (sources testSources : List (String × String)) (raw rawTests : String)
    (hparse : transform_parse_multi_file_response raw = []) :
    (∀ p c0, sources = [(p, c0)] →
      (_transform_one validate client sources testSources raw rawTests).writes =
        validatedWrites validate [(p, singleFileFallback raw)] ∧
      (_transform_one validate client sources testSources raw rawTests).success = true ∧
      (_transform_one validate client sources testSources raw rawTests).error = none) ∧
    (2 ≤ sources.length →
      (_transform_one validate client sources testSources raw rawTests).success = false ∧
      (_transform_one validate client sources testSources raw rawTests).error =
        some "Failed to parse Claude multi-file response" ∧
      (_transform_one validate client sources testSources raw rawTests).writes = []) := by
  constructor
  · rintro p c0 rfl
    have hres : resolveUpdatedFiles [(p, c0)] raw = some [(p, singleFileFallback raw)] := by
      simp only [resolveUpdatedFiles, hparse]
      simp
    unfold _transform_one
    rw [hres]
    exact ⟨rfl, rfl, rfl⟩
  · intro hlen
    have hres : resolveUpdatedFiles sources raw = none := by
      match sources, hlen with
      | a :: b :: rest, _ =>
        simp only [resolveUpdatedFiles, hparse]
        simp
    unfold _transform_one
    rw [hres]
    exact ⟨rfl, rfl, rfl⟩

/-- Witness for C7: a marker-free prose response against a single-file
target and against a two-file target. -/
theorem transform_zero_parse_fallbacks_witness :
    (_transform_one (fun _ => true) "crewai" [("a.py", "old")] [] proseResponse "").writes =
      validatedWrites (fun _ => true) [("a.py", singleFileFallback proseResponse)] ∧
    (_transform_one (fun _ => true) "crewai" [("a.py", "old"), ("b.py", "old2")] []
      proseResponse "").success = false ∧
    (_transform_one (fun _ => true) "crewai" [("a.py", "old"), ("b.py", "old2")] []
      proseResponse "").error = some "Failed to parse Claude multi-file response" :=
  ⟨((transform_zero_parse_fallbacks (fun _ => true) "crewai" [("a.py", "old")] []
      proseResponse "" (by decide)).1 "a.py" "old" rfl).1,
   ((transform_zero_parse_fallbacks (fun _ => true) "crewai"
      [("a.py", "old"), ("b.py", "old2")] [] proseResponse "" (by decide)).2 (by decide)).1,
   ((transform_zero_parse_fallbacks (fun _ => true) "crewai"
      [("a.py", "old"), ("b.py", "old2")] [] proseResponse "" (by decide)).2 (by decide)).2.1⟩

/-- Claim C4, amended: the Stage-3 parser applies the three strategies
in the fixed order (primary markers, fenced blocks, dash/heading
headers) and returns the first non-empty result; the Stage-2 parser
applies only the primary marker strategy and returns the empty mapping
whenever that strategy finds nothing, even when a fallback strategy
would have found files. -/
theorem parser_fallback_order (raw : String) :
    (tryParseEqMarkers (fenceStrip raw.data) ≠ [] →
      parse_multi_file_response raw = tryParseEqMarkers (fenceStrip raw.data)) ∧
    (tryParseEqMarkers (fenceStrip raw.data) = [] →
      tryParseFencedBlocks (pyStrip raw.data) ≠ [] →
      parse_multi_file_response raw = tryParseFencedBlocks (pyStrip raw.data)) ∧
    (tryParseEqMarkers (fenceStrip raw.data) = [] →
      tryParseFencedBlocks (pyStrip raw.data) = [] →
      parse_multi_file_response raw = tryParseAltSeparators (fenceStrip raw.data)) ∧
    (transform_parse_multi_file_response raw = tryParseEqMarkers (fenceStrip raw.data)) ∧
    (tryParseEqMarkers (fenceStrip raw.data) = [] →
      transform_parse_multi_file_response raw = []) := by
  refine ⟨?_, ?_, ?_, rfl, ?_⟩
  · intro h1
    simp only [parse_multi_file_response]
    rw [if_pos h1]
  · intro h1 h2
    simp only [parse_multi_file_response]
    rw [if_neg (not_not_intro h1), if_pos h2]
  · intro h1 h2
    simp only [parse_multi_file_response]
    rw [if_neg (not_not_intro h1), if_neg (not_not_intro h2)]
  · intro h1
    simp only [transform_parse_multi_file_response]
    exact h1

/-- Witness for the amended C4: the primary-marker branch and the
fenced-block fallback branch, each at a concrete response. -/
theorem parser_fallback_order_witness :
    parse_multi_file_response eqMarkerResponse =
      tryParseEqMarkers (fenceStrip eqMarkerResponse.data) ∧
    parse_multi_file_response fencedOnlyResponse =
      tryParseFencedBlocks (pyStrip fencedOnlyResponse.data) :=
  ⟨(parser_fallback_order eqMarkerResponse).1 (by decide),
   (parser_fallback_order fencedOnlyResponse).2.1 (by decide) (by decide)⟩

/-- Counterexample refuting C4 as stated: on a fenced-block-only
response the Stage-3 parser recovers the file through strategy 2, but
the Stage-2 parser — which the claim asserts applies the same ordered
fallback ladder — returns no files although strategy 2 yields one. -/
theorem stage2_parser_lacks_fallback_counterexample :
    tryParseFencedBlocks (pyStrip fencedOnlyResponse.data) = [("a.py", "x = 1")] ∧
    parse_multi_file_response fencedOnlyResponse = [("a.py", "x = 1")] ∧
    transform_parse_multi_file_response fencedOnlyResponse = [] := by
  refine ⟨?_, ?_, ?_⟩ <;> decide

theorem pySplitChar_no_sep (sep : Char) (l : List Char) (h : ∀ ch ∈ l, ch ≠ sep) :
    pySplitChar sep l = [l] := by
  induction l with
  | nil => rfl
  | cons c l ih =>
    have hc : c ≠ sep := h c (List.mem_cons_self _ _)
    have hl : ∀ ch ∈ l, ch ≠ sep := fun ch hm => h ch (List.mem_cons_of_mem _ hm)
    simp [pySplitChar, hc, ih hl]

theorem pySplitChar_append_sep (sep : Char) (l z : List Char) (h : ∀ ch ∈ l, ch ≠ sep) :
    pySplitChar sep (l ++ sep :: z) = l :: pySplitChar sep z := by
  induction l with
  | nil => simp [pySplitChar]
  | cons c l ih =>
    have hc : c ≠ sep := h c (List.mem_cons_self _ _)
    have hl : ∀ ch ∈ l, ch ≠ sep := fun ch hm => h ch (List.mem_cons_of_mem _ hm)
    simp [pySplitChar, hc, ih hl]

theorem pySplitChar_joinNl (lines : List (List Char))
    (h : ∀ l ∈ lines, ∀ ch ∈ l, ch ≠ '\n') (hne : lines ≠ []) :
    pySplitChar '\n' (pyJoinNl lines) = lines := by
  induction lines with
  | nil => exact absurd rfl hne
  | cons l rest ih =>
    cases rest with
    | nil => exact pySplitChar_no_sep '\n' l (h l (List.mem_cons_self _ _))
    | cons l2 rest2 =>
      have hjoin : pyJoinNl (l :: l2 :: rest2) = l ++ '\n' :: pyJoinNl (l2 :: rest2) := rfl
      rw [hjoin, pySplitChar_append_sep '\n' l _ (h l (List.mem_cons_self _ _)),
        ih (fun x hx => h x (List.mem_cons_of_mem _ hx)) (List.cons_ne_nil _ _)]

theorem findFirstCode_append (p : List (List Char)) (x : List Char)
    (rest : List (List Char)) (hp : ∀ l ∈ p, pythonLine l = false)
    (hx : pythonLine x = true) :
    findFirstCode (p ++ x :: rest) = some p.length := by
  induction p with
  | nil => simp [findFirstCode, hx]
  | cons l p ih =>
    have hl : pythonLine l = false := hp l (List.mem_cons_self _ _)
    have hp2 : ∀ l2 ∈ p, pythonLine l2 = false := fun l2 hm => hp l2 (List.mem_cons_of_mem _ hm)
    simp [findFirstCode, hl, ih hp2]

theorem scanBack_stops_at_code (w : List (List Char)) (zh : List Char)
    (zt : List (List Char)) (idx last : Int)
    (hw : ∀ l ∈ w, pyStrip l = [] ∨ backStop l = false)
    (hzh1 : pyStrip zh ≠ []) (hzh2 : backStop zh = true) :
    scanBack (w ++ zh :: zt) idx last = idx - w.length := by
  induction w generalizing idx last with
  | nil =>
    simp only [List.nil_append, scanBack]
    rw [if_neg hzh1, if_pos hzh2]
    simp
  | cons l w ih =>
    have hw2 : ∀ l2 ∈ w, pyStrip l2 = [] ∨ backStop l2 = false :=
      fun l2 hm => hw l2 (List.mem_cons_of_mem _ hm)
    by_cases hblank : pyStrip l = []
    · rw [List.cons_append]
      show scanBack ((l :: (w ++ zh :: zt))) idx last = _
      simp only [scanBack]
      rw [if_pos hblank, ih (idx - 1) last hw2]
      simp only [List.length_cons]
      push_cast
      ring
    · have hbs : backStop l = false := ((hw l (List.mem_cons_self _ _)).resolve_left hblank)
      rw [List.cons_append]
      simp only [scanBack]
      rw [if_neg hblank, if_neg (by simp [hbs]), ih (idx - 1) (idx - 1) hw2]
      simp only [List.length_cons]
      push_cast
      ring

/-- Claim C8: sanitization drops a leading prose block and a trailing
prose block while keeping the code — including its interior blank
lines — verbatim: for any newline-free lines `p` (none matching the
code heuristic), code `first :: mid ++ [lastL]` whose first line
matches the heuristic and whose last line is indented or matches it,
and trailing lines `q` that are each blank or non-code and unindented,
sanitizing the joined block returns exactly the stripped joined code
lines. -/
theorem sanitize_strips_prose_keeps_interior_blanks
    (p mid q : List (List Char)) (first lastL : List Char)
    (hnl : ∀ l ∈ p ++ (first :: (mid ++ [lastL])) ++ q, ∀ ch ∈ l, ch ≠ '\n')
    (hp : ∀ l ∈ p, pythonLine l = false)
    (hfirst : pythonLine first = true)
    (hlast1 : pyStrip lastL ≠ [])
    (hlast2 : backStop lastL = true)
    (hq : ∀ l ∈ q, pyStrip l = [] ∨ backStop l = false) :
    _sanitize_code (String.mk (pyJoinNl (p ++ (first :: (mid ++ [lastL])) ++ q))) =
      String.mk (pyStrip (pyJoinNl (first :: (mid ++ [lastL])))) := by
  have hlines : pySplitChar '\n' (pyJoinNl (p ++ (first :: (mid ++ [lastL])) ++ q)) =
      p ++ (first :: (mid ++ [lastL])) ++ q :=
    pySplitChar_joinNl _ hnl (by simp)
  show String.mk (sanitizeLines
      (pySplitChar '\n' (pyJoinNl (p ++ (first :: (mid ++ [lastL])) ++ q)))) = _
  rw [hlines]
  have hfind : findFirstCode (p ++ (first :: (mid ++ [lastL])) ++ q) = some p.length := by
    have hassoc : p ++ (first :: (mid ++ [lastL])) ++ q =
        p ++ first :: ((mid ++ [lastL]) ++ q) := by
      simp [List.append_assoc]
    rw [hassoc]
    exact findFirstCode_append p first _ hp hfirst
  have hdrop : (p ++ (first :: (mid ++ [lastL])) ++ q).drop p.length =
      (first :: (mid ++ [lastL])) ++ q := by
    rw [List.append_assoc]
    exact List.drop_left p _
  have hrevc : (first :: (mid ++ [lastL])) = (first :: mid) ++ [lastL] := by simp
  have hrev : ((first :: (mid ++ [lastL])) ++ q).reverse =
      q.reverse ++ (lastL :: (first :: mid).reverse) := by
    rw [List.reverse_append, hrevc, List.reverse_append]
    rfl
  have hlen : (p ++ (first :: (mid ++ [lastL])) ++ q).length =
      p.length + (mid.length + 2) + q.length := by
    simp
    try omega
  unfold sanitizeLines
  rw [hfind]
  simp only [Option.getD_some]
  rw [hdrop, hrev,
    scanBack_stops_at_code q.reverse lastL (first :: mid).reverse _ _
      (fun l hl => hq l (List.mem_reverse.mp hl)) hlast1 hlast2]
  rw [List.length_reverse, hlen]
  have htoNat : ((((p.length + (mid.length + 2) + q.length : Nat) : Int) - 1 -
      (q.length : Int)) + 1).toNat = p.length + (mid.length + 2) := by omega
  rw [htoNat]
  have htake : (p ++ (first :: (mid ++ [lastL])) ++ q).take (p.length + (mid.length + 2)) =
      p ++ (first :: (mid ++ [lastL])) := by
    have h1 : p.length + (mid.length + 2) = (p ++ (first :: (mid ++ [lastL]))).length := by
      simp
      try omega
    rw [h1]
    exact List.take_left _ _
  rw [htake, List.drop_left p _]

/-- Witness for C8: a prose paragraph, a function body with an interior
blank line, and a trailing prose paragraph; the sanitized output is
exactly the code block, interior blank line included. -/
theorem sanitize_strips_prose_keeps_interior_blanks_witness :
    _sanitize_code (String.mk (pyJoinNl
        (["Here is the fixed code:".data, "".data] ++
          ("def f():".data :: (["    x = 1".data, "".data] ++ ["    return x".data])) ++
          ["".data, "That should fix the failing test.".data]))) =
      String.mk (pyStrip (pyJoinNl
        ("def f():".data :: (["    x = 1".data, "".data] ++ ["    return x".data])))) ∧
    String.mk (pyStrip (pyJoinNl
        ("def f():".data :: (["    x = 1".data, "".data] ++ ["    return x".data])))) =
      "def f():\n    x = 1\n\n    return x" :=
  ⟨sanitize_strips_prose_keeps_interior_blanks
      ["Here is the fixed code:".data, "".data]
      ["    x = 1".data, "".data]
      ["".data, "That should fix the failing test.".data]
      "def f():".data "    return x".data
      (by decide) (by decide) (by decide) (by decide) (by decide) (by decide),
    by decide⟩

end IntegrationAutomation
